import Mathlib

/-!
Verification development for the writeup-hunter feed pipeline (main.go).

The Go program is shallowly embedded: pure helpers become Lean functions,
the per-item loop body of `main` becomes an explicit state transformer,
and external effects (HTTP fetches, `time.Parse`, `url.Parse`, file writes,
random draws, clocks) are passed in as explicit parameters so that the
program logic itself is executable and provable.
-/

set_option maxHeartbeats 1000000

namespace WriteupHunter

/-- Substring test on char lists: `prefixMatch pat s` holds when `pat` is an
initial segment of `s`.  Models the byte-wise prefix test underlying Go's
`strings.Contains`. -/
def prefixMatch : List Char → List Char → Bool
  | [], _ => true
  | _ :: _, [] => false
  | c :: cs, d :: ds => c == d && prefixMatch cs ds

/-- Occurrence test on char lists: `occursIn pat s` holds when `pat` occurs
contiguously inside `s`. -/
def occursIn : List Char → List Char → Bool
  | pat, [] => pat.isEmpty
  | pat, x :: tail => prefixMatch pat (x :: tail) || occursIn pat tail

/-- String containment, modelling Go `strings.Contains s pat`. -/
def strContains (s pat : String) : Bool :=
  occursIn pat.data s.data

/-- Rune-wise lower-casing, modelling Go `strings.ToLower` (which maps each
rune through its lower-case form; all keyword data here is ASCII). -/
def strToLower (s : String) : String :=
  String.mk (s.data.map Char.toLower)

/-- Prefix test, modelling Go `strings.HasPrefix s p`. -/
def strStartsWith (s p : String) : Bool :=
  prefixMatch p.data s.data

/-- The keyword-to-topic table from main.go (the `keywords` map literal),
kept in source order as an association list; Go map iteration order is
unspecified, and no claim depends on the order. -/
def keywordsList : List (String × String) :=
  [("general", "0"),
   ("xss", "5"),
   ("open redirect", "12"),
   ("business logic", "11"),
   ("authentication", "10"),
   ("privilege escalation", "9"),
   ("misconfiguration", "8"),
   ("idor", "7"),
   ("access control", "6"),
   ("recon", "52"),
   ("osint", "51"),
   ("enumeration", "52"),
   ("fuzzing", "52"),
   ("bypass", "52"),
   ("cache poisoning", "53"),
   ("Cache Deception", "54"),
   ("HTTP Request Smuggling", "55"),
   ("H2C Smuggling", "56"),
   ("Client Side Template Injection", "57"),
   ("Command Injection", "58"),
   ("CRLF", "59"),
   ("Dangling Markup", "60"),
   ("File Inclusion", "61"),
   ("Path Traversal", "61"),
   ("Prototype Pollution", "62"),
   ("Server Side Inclusion", "63"),
   ("Edge Side Inclusion", "63"),
   ("Server Side Request Forgery", "64"),
   ("Server Side Template Injection", "65"),
   ("Reverse Tab Nabbing", "66"),
   ("XSLT Injection", "67"),
   ("XSSI", "68"),
   ("NoSQL", "69"),
   ("LDAP", "70"),
   ("ReDoS", "71"),
   ("SQL Injection", "2"),
   ("XPATH Injection", "72"),
   ("Cross Site Request Forgery", "74"),
   ("CSRF", "74"),
   ("Cross-site WebSocket hijacking", "75"),
   ("PostMessage Vulnerabilities", "76"),
   ("Clickjacking", "77"),
   ("CSP bypass", "78"),
   ("2FA Bypass", "79"),
   ("Payment Bypass", "80"),
   ("Captcha Bypass", "81"),
   ("Login Bypass", "82"),
   ("Race Condition", "83"),
   ("Rate Limit", "84"),
   ("Reset Password", "85"),
   ("Mail Header Injection", "86"),
   ("JWT", "87"),
   ("XXE", "88"),
   ("File Upload", "89"),
   ("OAUTH", "90"),
   ("SAML", "91"),
   ("Subdomain Takeover", "92"),
   ("Parameter Pollution", "93")]

/-- A normalized feed entry, the projection of `gofeed.Item` that the
pipeline reads (Title, Description, Link, Published). -/
structure Item where
  title : String
  description : String
  link : String
  published : String
deriving DecidableEq, Repr

/-- The `Article` struct from main.go: an item enriched with its matched
keywords. -/
structure Article where
  title : String
  description : String
  link : String
  published : String
  matched : List String
deriving DecidableEq, Repr

/-- The `processArticle` function from main.go: lower-cases title plus a
space plus description, collects every keyword of the table contained in
that text, and returns `none` when nothing matched. -/
def processArticle (item : Item) : Option Article :=
  let articleText := strToLower (item.title ++ " " ++ item.description)
  let matchedKeywords :=
    (keywordsList.filter (fun kv => strContains articleText (strToLower kv.1))).map (fun kv => kv.1)
  if matchedKeywords.isEmpty then none
  else some { title := item.title, description := item.description,
              link := item.link, published := item.published,
              matched := matchedKeywords }

/-- The fallback list of date layouts tried by `parseDate` in main.go, in
source order. -/
def dateFormats : List String :=
  ["Mon, 02 Jan 2006 15:04:05 MST",
   "Mon, 02 Jan 2006 15:04:05 -0700",
   "2006-01-02T15:04:05Z07:00",
   "2006-01-02 15:04:05 -0700",
   "2006-01-02 15:04:05",
   "02 Jan 2006 15:04:05 MST"]

/-- The `parseDate` function from main.go.  The primitive `tp layout s`
stands for Go's `time.Parse layout s` (a stdlib capability, passed in as a
parameter); `parseDate` tries each layout of the fallback list in order and
returns the first success.  Instants are modelled as integers. -/
def parseDate (tp : String → String → Option Int) (dateStr : String) : Option Int :=
  dateFormats.findSome? (fun format => tp format dateStr)

/-- A parsed URL as far as `cleanURL` inspects it: an uninterpreted non-query part
and the query as an association list of key-value pairs.  Go's
`url.Parse` / `URL.String` round-trip is abstracted into a parse/render
pair of parameters. -/
structure ParsedURL where
  base : String
  query : List (String × String)

/-- The query-parameter filter inside `cleanURL` from main.go: every
parameter named `source` or whose name has the prefix `utm_` is deleted. -/
def cleanQuery (query : List (String × String)) : List (String × String) :=
  query.filter (fun kv => !(kv.1 == "source" || strStartsWith kv.1 "utm_"))

/-- The `cleanURL` function from main.go: a link that fails URL parsing is
returned unchanged; otherwise the tracking parameters are removed and the
URL is re-rendered. -/
def cleanURL (parse : String → Option ParsedURL) (render : ParsedURL → String)
    (rawURL : String) : String :=
  match parse rawURL with
  | none => rawURL
  | some parsed => render { parsed with query := cleanQuery parsed.query }

/-- The final link placed into a Telegram message by
`formatTelegramMessage` from main.go: the cleaned link, rewritten through
freedium.cfd when it contains `medium.com`. -/
def messageLink (parse : String → Option ParsedURL) (render : ParsedURL → String)
    (link : String) : String :=
  let cleanedLink := cleanURL parse render link
  if strContains cleanedLink "medium.com" then "https://freedium.cfd/" ++ cleanedLink
  else cleanedLink

/-- The `formatTelegramMessage` function from main.go, with the Sprintf
template expanded into explicit concatenation (the first characters are the
bytes that appear verbatim in the source). -/
def formatTelegramMessage (parse : String → Option ParsedURL) (render : ParsedURL → String)
    (article : Article) (keyword : String) : String :=
  "â–¶ " ++ article.title ++ "\nPublished: " ++ article.published ++
    "\nLink: " ++ messageLink parse render article.link ++ "\nTags: " ++ keyword

/-- The external capabilities the per-item loop body of `main` consumes:
Go's `url.Parse` and `URL.String` (for message formatting) and Go's
`time.Parse` (for `parseDate`). -/
structure Env where
  parse : String → Option ParsedURL
  render : ParsedURL → String
  tp : String → String → Option Int

/-- The mutable state the per-item loop body of `main` touches: the
in-memory `foundUrls` set and the lines of the append-only found-url.txt
dedup log. -/
structure PipelineState where
  seen : List String
  log : List String
deriving DecidableEq, Repr

/-- The per-item loop body of `main` (main.go lines 199-234) as a state
transformer.  Returns the new state and the trace of dispatched Telegram
messages, each tagged with the link of the item that produced it.
`saveOk` is the outcome of the `saveURL` file append: on failure the loop
does `continue`, leaving both the log and the in-memory set unchanged;
notifications have already been sent either way. -/
def processItem (env : Env) (cutoffTime : Int) (saveOk : Bool)
    (s : PipelineState) (item : Item) : PipelineState × List (String × String) :=
  if s.seen.contains item.link then (s, [])
  else
    match processArticle item with
    | none => (s, [])
    | some article =>
      match parseDate env.tp item.published with
      | none => (s, [])
      | some pubDate =>
        if pubDate < cutoffTime then (s, [])
        else
          let messages := article.matched.map
            (fun keyword => (item.link, formatTelegramMessage env.parse env.render article keyword))
          if saveOk then
            ({ seen := item.link :: s.seen, log := s.log ++ [item.link] }, messages)
          else (s, messages)

/-- The article loop of one feed: folds `processItem` over the item list in
source order, concatenating the dispatched-message traces.  `saveOk` gives
the outcome of each item's `saveURL` call. -/
def runItems (env : Env) (cutoffTime : Int) (saveOk : Item → Bool) :
    PipelineState → List Item → PipelineState × List (String × String)
  | s, [] => (s, [])
  | s, item :: rest =>
    let step := processItem env cutoffTime (saveOk item) s item
    let next := runItems env cutoffTime saveOk step.1 rest
    (next.1, step.2 ++ next.2)

/-- The Go error values `shouldRetry` from main.go can encounter, as an
inductive universe.  `wrapped` models `fmt.Errorf` with a `%w` verb (its
`Unwrap` yields the inner error).  Flag fields carry the results of the
`Timeout()` / `Temporary()` / `IsNotFound` methods of the corresponding Go
types; leaf message fields carry `Error()` strings. -/
inductive GoError where
  | httpError (statusCode : Nat) (body : String)
  | netErr (timeoutFlag temporaryFlag : Bool) (msg : String)
  | dnsError (isNotFound isTimeout isTemporary : Bool) (msg : String)
  | urlError (timeoutFlag temporaryFlag : Bool) (msg : String)
  | eofError
  | unexpectedEOF
  | econnrefused
  | econnreset
  | otherError (msg : String)
  | wrapped (context : String) (inner : GoError)
deriving DecidableEq, Repr

/-- The `Error()` string of a modelled Go error.  `httpError` renders the
`HTTPError.Error` format string of main.go; `wrapped` renders the
`fmt.Errorf` convention of context, colon, space, inner message. -/
def GoError.errMsg : GoError → String
  | .httpError code body => "HTTP error " ++ Nat.repr code ++ ": " ++ body
  | .netErr _ _ msg => msg
  | .dnsError _ _ _ msg => msg
  | .urlError _ _ msg => msg
  | .eofError => "EOF"
  | .unexpectedEOF => "unexpected EOF"
  | .econnrefused => "connection refused"
  | .econnreset => "connection reset by peer"
  | .otherError msg => msg
  | .wrapped context inner => context ++ ": " ++ inner.errMsg

/-- Models `errors.As(err, &httpErr)` for `*HTTPError`: the first
`HTTPError` in the unwrap chain. -/
def GoError.asHTTPError : GoError → Option (Nat × String)
  | .httpError code body => some (code, body)
  | .wrapped _ inner => inner.asHTTPError
  | _ => none

/-- Models `errors.As(err, &netErr)` for the `net.Error` interface: the
first error in the unwrap chain implementing it, yielding its
`(Timeout(), Temporary())` pair.  `*net.DNSError` implements it with
`Temporary() = IsTimeout || IsTemporary`; `*url.Error` implements it;
`syscall.Errno` implements it and reports `(false, false)` for
ECONNREFUSED and ECONNRESET. -/
def GoError.asNetError : GoError → Option (Bool × Bool)
  | .netErr t tmp _ => some (t, tmp)
  | .dnsError _ t tmp _ => some (t, t || tmp)
  | .urlError t tmp _ => some (t, tmp)
  | .econnrefused => some (false, false)
  | .econnreset => some (false, false)
  | .wrapped _ inner => inner.asNetError
  | _ => none

/-- Models `errors.As(err, &dnsErr)` for `*net.DNSError`, yielding
`IsNotFound`. -/
def GoError.asDNSError : GoError → Option Bool
  | .dnsError nf _ _ _ => some nf
  | .wrapped _ inner => inner.asDNSError
  | _ => none

/-- Models `errors.As(err, &urlErr)` for `*url.Error`, yielding its
`(Timeout(), Temporary())` pair. -/
def GoError.asURLError : GoError → Option (Bool × Bool)
  | .urlError t tmp _ => some (t, tmp)
  | .wrapped _ inner => inner.asURLError
  | _ => none

/-- Models `errors.Is(err, io.EOF)`. -/
def GoError.isEOFErr : GoError → Bool
  | .eofError => true
  | .wrapped _ inner => inner.isEOFErr
  | _ => false

/-- Models `errors.Is(err, syscall.ECONNREFUSED)`. -/
def GoError.isConnRefused : GoError → Bool
  | .econnrefused => true
  | .wrapped _ inner => inner.isConnRefused
  | _ => false

/-- Models `errors.Is(err, syscall.ECONNRESET)`. -/
def GoError.isConnReset : GoError → Bool
  | .econnreset => true
  | .wrapped _ inner => inner.isConnReset
  | _ => false

/-- The final `switch` of `shouldRetry` from main.go: EOF, connection
refused, connection reset, or an error string containing the TLS handshake
timeout marker; every other error is not retried. -/
def shouldRetrySwitch (e : GoError) : Bool :=
  if e.isEOFErr then true
  else if e.isConnRefused then true
  else if e.isConnReset then true
  else if strContains e.errMsg "TLS handshake timeout" then true
  else false

/-- The `url.Error` branch of `shouldRetry`: retried only when the URL
error reports timeout or temporary; otherwise control falls to the final
switch. -/
def shouldRetryURL (e : GoError) : Bool :=
  match e.asURLError with
  | some (t, tmp) => if t || tmp then true else shouldRetrySwitch e
  | none => shouldRetrySwitch e

/-- The `*net.DNSError` branch of `shouldRetry`: an unconditional return of
the negation of `IsNotFound`. -/
def shouldRetryDNS (e : GoError) : Bool :=
  match e.asDNSError with
  | some notFound => !notFound
  | none => shouldRetryURL e

/-- The `net.Error` branch of `shouldRetry`: retried when the error reports
timeout or temporary; otherwise control falls through. -/
def shouldRetryNet (e : GoError) : Bool :=
  match e.asNetError with
  | some (t, tmp) => if t || tmp then true else shouldRetryDNS e
  | none => shouldRetryDNS e

/-- The `shouldRetry` function from main.go, with the branches in source
order: HTTP status classification first, then the net.Error, DNS, url.Error
branches, then the final switch. -/
def shouldRetry (e : GoError) : Bool :=
  match e.asHTTPError with
  | some (code, _) =>
    if 500 ≤ code || code == 429 then true
    else if 400 ≤ code && code < 500 then false
    else shouldRetryNet e
  | none => shouldRetryNet e

/-- The `getBackoffDelay` function from main.go over abstract duration
units: `baseDelay * 2 ^ attempt` plus the random draw `r` (the value of
`rand.Int63n jitter`, so `0 ≤ r < jitter`), capped at `maxDelay`. -/
def getBackoffDelay (attempt baseDelay jitter maxDelay r : Nat) : Nat :=
  let delay := baseDelay * 2 ^ attempt + r
  if maxDelay < delay then maxDelay else delay

/-- The retry loop body of `fetchArticlesWithRetry` from main.go.  `fetch
url attempt` is the outcome of the `fetchArticles(url)` call on the given
attempt number; `fuel` is the number of loop iterations still allowed
(initially `maxRetries + 1`); `lastErr` is the Go `err` variable.  Returns
the loop outcome together with the number of fetch attempts performed. -/
def fetchRetryLoop (fetch : String → Nat → Except GoError (List Item)) (url : String) :
    Nat → Nat → GoError → Except GoError (List Item) × Nat
  | _, 0, lastErr => (.error lastErr, 0)
  | attempt, fuel + 1, _ =>
    match fetch url attempt with
    | .ok items => (.ok items, 1)
    | .error e =>
      if shouldRetry e then
        let rest := fetchRetryLoop fetch url (attempt + 1) fuel e
        (rest.1, rest.2 + 1)
      else (.error e, 1)

/-- The `fetchArticlesWithRetry` function from main.go: runs the loop for
at most `maxRetries + 1` attempts and, on failure, wraps the last error as
`fmt.Errorf("after %d attempts: %w", maxRetries, err)`.  The second
component is the number of fetch attempts performed. -/
def fetchArticlesWithRetry (fetch : String → Nat → Except GoError (List Item))
    (url : String) (maxRetries : Nat) : Except GoError (List Item) × Nat :=
  let outcome := fetchRetryLoop fetch url 0 (maxRetries + 1) (.otherError "")
  match outcome.1 with
  | .ok items => (.ok items, outcome.2)
  | .error e =>
    (.error (.wrapped ("after " ++ Nat.repr maxRetries ++ " attempts") e), outcome.2)

/-- One decoded element of the writeups.xyz JSON feed, with the fields the
`jsonItem` struct of main.go declares. -/
structure JsonItem where
  title : String
  description : String
  link : String
  published : String
  authors : List String
  vulnerabilities : List String
deriving DecidableEq, Repr

/-- The item conversion inside `parseWriteupsXYZFeed` from main.go: each
JSON object becomes one normalized feed item carrying title, description,
link and published date (authors and vulnerability tags are read but
dropped). -/
def toFeedItem (j : JsonItem) : Item :=
  { title := j.title, description := j.description,
    link := j.link, published := j.published }

/-- The `parseWriteupsXYZFeed` function from main.go.  `getResult` is the
outcome of `http.Get` (status code and body on success); `decode` is Go's
`json.Unmarshal` into the `jsonItem` list.  A non-200 status produces the
plain (unwrapped) error string of the source; decoding errors are wrapped. -/
def parseWriteupsXYZFeed (decode : String → Except String (List JsonItem))
    (getResult : Except GoError (Nat × String)) : Except GoError (List Item) :=
  match getResult with
  | .error e => .error (.wrapped "fetching JSON feed" e)
  | .ok (statusCode, body) =>
    if statusCode ≠ 200 then
      .error (.otherError ("unexpected status code: " ++ Nat.repr statusCode))
    else
      match decode body with
      | .error msg => .error (.wrapped "unmarshaling JSON" (.otherError msg))
      | .ok items => .ok (items.map toFeedItem)

/-- The `RateLimiter` struct from main.go, with times in abstract units.
`lastReq` is the host-to-last-request-time map as an association list whose
head entry shadows older ones. -/
structure RateLimiter where
  lastReq : List (String × Nat)
  minDelay : Nat
  jitter : Nat

/-- The `RateLimiter.Wait` method from main.go as a sequential state
transition: called at instant `now` with random draw `r` (the value of
`rand.Int63n jitter`, so `0 ≤ r < jitter`), it returns the sleep duration
and the updated limiter; the map records `time.Now()` as observed after the
sleep, i.e. `now + sleep`. -/
def RateLimiter.Wait (rl : RateLimiter) (domain : String) (now r : Nat) :
    Nat × RateLimiter :=
  let sleep :=
    match rl.lastReq.lookup domain with
    | some last =>
      let elapsed := now - last
      if elapsed < rl.minDelay then rl.minDelay - elapsed + r else 0
    | none => 0
  (sleep, { rl with lastReq := (domain, now + sleep) :: rl.lastReq })

/-! ### Helper lemmas -/

theorem prefixMatch_mem {p s : List Char} (h : prefixMatch p s = true) :
    ∀ c ∈ p, c ∈ s := by
  induction p generalizing s with
  | nil => intro c hc; cases hc
  | cons a as ih =>
    cases s with
    | nil => simp [prefixMatch] at h
    | cons b bs =>
      simp only [prefixMatch, Bool.and_eq_true, beq_iff_eq] at h
      intro c hc
      rcases List.mem_cons.mp hc with rfl | hc
      · exact h.1 ▸ List.mem_cons_self _ _
      · exact List.mem_cons_of_mem _ (ih h.2 c hc)

theorem occursIn_mem {p s : List Char} (h : occursIn p s = true) :
    ∀ c ∈ p, c ∈ s := by
  induction s with
  | nil =>
    simp only [occursIn, List.isEmpty_iff] at h
    subst h; intro c hc; cases hc
  | cons b bs ih =>
    simp only [occursIn, Bool.or_eq_true] at h
    rcases h with h | h
    · exact prefixMatch_mem h
    · exact fun c hc => List.mem_cons_of_mem _ (ih h c hc)

theorem prefixMatch_append_self (p b : List Char) : prefixMatch p (p ++ b) = true := by
  induction p with
  | nil => rfl
  | cons a as ih => simp [prefixMatch, ih]

theorem occursIn_append_self (p b : List Char) : occursIn p (p ++ b) = true := by
  cases p with
  | nil => cases b <;> simp [occursIn, List.isEmpty, prefixMatch]
  | cons a as =>
    simp only [List.cons_append, occursIn, Bool.or_eq_true]
    exact Or.inl (prefixMatch_append_self (a :: as) b)

theorem occursIn_append_left {p s : List Char} (x : List Char)
    (h : occursIn p s = true) : occursIn p (x ++ s) = true := by
  induction x with
  | nil => exact h
  | cons a as ih => simp only [List.cons_append, occursIn, Bool.or_eq_true]; exact Or.inr ih

theorem string_data_append (a b : String) : (a ++ b).data = a.data ++ b.data := rfl

theorem strContains_sandwich (a pat b : String) :
    strContains (a ++ pat ++ b) pat = true := by
  show occursIn pat.data (a ++ pat ++ b).data = true
  have : (a ++ pat ++ b).data = a.data ++ (pat.data ++ b.data) := by
    simp [string_data_append]
  rw [this]
  exact occursIn_append_left a.data (occursIn_append_self pat.data b.data)

theorem digitChar_isDigit {n : Nat} (h : n < 10) : (Nat.digitChar n).isDigit = true := by
  interval_cases n <;> decide

theorem toDigitsCore_chars :
    ∀ (fuel n : Nat) (ds : List Char), ∀ c ∈ Nat.toDigitsCore 10 fuel n ds,
      c ∈ ds ∨ c.isDigit = true := by
  intro fuel
  induction fuel with
  | zero => intro n ds c hc; exact Or.inl hc
  | succ fuel ih =>
    intro n ds c hc
    simp only [Nat.toDigitsCore] at hc
    by_cases hz : n / 10 = 0
    · simp only [hz, if_pos rfl] at hc
      rcases List.mem_cons.mp hc with rfl | hmem
      · exact Or.inr (digitChar_isDigit (Nat.mod_lt n (by norm_num)))
      · exact Or.inl hmem
    · rw [if_neg hz] at hc
      rcases ih (n / 10) (Nat.digitChar (n % 10) :: ds) c hc with hmem | hd
      · rcases List.mem_cons.mp hmem with rfl | hmem
        · exact Or.inr (digitChar_isDigit (Nat.mod_lt n (by norm_num)))
        · exact Or.inl hmem
      · exact Or.inr hd

theorem natRepr_chars_isDigit (n : Nat) : ∀ c ∈ (Nat.repr n).data, c.isDigit = true := by
  intro c hc
  have hc' : c ∈ Nat.toDigitsCore 10 (n + 1) n [] := hc
  rcases toDigitsCore_chars (n + 1) n [] c hc' with h | h
  · cases h
  · exact h

theorem statusMsg_no_tls (code : Nat) :
    strContains ("unexpected status code: " ++ Nat.repr code) "TLS handshake timeout" = false := by
  by_contra h
  rw [Bool.not_eq_false] at h
  have hmem := occursIn_mem h 'L' (by decide)
  rw [string_data_append] at hmem
  rcases List.mem_append.mp hmem with hpre | hrep
  · revert hpre; decide
  · have := natRepr_chars_isDigit code 'L' hrep
    simp at this

theorem processArticle_matched_ne_nil {item : Item} {article : Article}
    (h : processArticle item = some article) : article.matched ≠ [] := by
  simp only [processArticle] at h
  split at h
  · exact absurd h (by simp)
  · rename_i hne
    cases h
    simpa [List.isEmpty_iff] using hne

theorem processItem_seen_skip (env : Env) (cutoffTime : Int) (saveOk : Bool)
    (s : PipelineState) (item : Item) (h : item.link ∈ s.seen) :
    processItem env cutoffTime saveOk s item = (s, []) := by
  simp [processItem, h]

theorem processItem_pass (env : Env) (cutoffTime : Int) (saveOk : Bool)
    (s : PipelineState) (item : Item) (article : Article) (d : Int)
    (h1 : item.link ∉ s.seen)
    (h2 : processArticle item = some article)
    (h3 : parseDate env.tp item.published = some d)
    (h4 : ¬ d < cutoffTime) :
    processItem env cutoffTime saveOk s item =
      ((if saveOk then { seen := item.link :: s.seen, log := s.log ++ [item.link] } else s),
       article.matched.map
         (fun keyword => (item.link, formatTelegramMessage env.parse env.render article keyword))) := by
  cases saveOk <;> simp [processItem, h1, h2, h3, h4]

theorem processItem_shape (env : Env) (cutoffTime : Int) (saveOk : Bool)
    (s : PipelineState) (item : Item) :
    processItem env cutoffTime saveOk s item = (s, []) ∨
    ∃ article, processArticle item = some article ∧
      processItem env cutoffTime saveOk s item =
        ((if saveOk then { seen := item.link :: s.seen, log := s.log ++ [item.link] } else s),
         article.matched.map
           (fun keyword => (item.link, formatTelegramMessage env.parse env.render article keyword))) := by
  by_cases hc : item.link ∈ s.seen
  · exact Or.inl (processItem_seen_skip env cutoffTime saveOk s item hc)
  · cases hpa : processArticle item with
    | none => exact Or.inl (by simp [processItem, hc, hpa])
    | some article =>
      cases hpd : parseDate env.tp item.published with
      | none => exact Or.inl (by simp [processItem, hc, hpa, hpd])
      | some d =>
        by_cases hlt : d < cutoffTime
        · exact Or.inl (by simp [processItem, hc, hpa, hpd, hlt])
        · exact Or.inr ⟨article, rfl,
            processItem_pass env cutoffTime saveOk s item article d hc hpa hpd hlt⟩

theorem processItem_result_cases (env : Env) (cutoffTime : Int) (saveOk : Bool)
    (s : PipelineState) (item : Item) :
    (processItem env cutoffTime saveOk s item).1 = s ∨
      ((processItem env cutoffTime saveOk s item).1.seen = item.link :: s.seen ∧
       (processItem env cutoffTime saveOk s item).1.log = s.log ++ [item.link]) := by
  rcases processItem_shape env cutoffTime saveOk s item with h | ⟨article, _, h⟩
  · exact Or.inl (by rw [h])
  · cases saveOk with
    | false => exact Or.inl (by rw [h]; simp)
    | true => exact Or.inr (by rw [h]; simp)

theorem processItem_trace_links (env : Env) (cutoffTime : Int) (saveOk : Bool)
    (s : PipelineState) (item : Item) :
    ∀ e ∈ (processItem env cutoffTime saveOk s item).2, e.1 = item.link := by
  rcases processItem_shape env cutoffTime saveOk s item with h | ⟨article, _, h⟩
  · rw [h]; intro e he; cases he
  · rw [h]
    intro e he
    rcases List.mem_map.mp he with ⟨kw, _, rfl⟩
    rfl

theorem processItem_seen_mono (env : Env) (cutoffTime : Int) (saveOk : Bool)
    (s : PipelineState) (item : Item) (link : String)
    (h : link ∈ s.seen) :
    link ∈ (processItem env cutoffTime saveOk s item).1.seen := by
  rcases processItem_result_cases env cutoffTime saveOk s item with hcase | ⟨hseen, _⟩
  · rw [hcase]; exact h
  · rw [hseen]; exact List.mem_cons_of_mem _ h

theorem processItem_log_count (env : Env) (cutoffTime : Int) (saveOk : Bool)
    (s : PipelineState) (item : Item) (link : String) (hne : item.link ≠ link) :
    (processItem env cutoffTime saveOk s item).1.log.count link = s.log.count link := by
  rcases processItem_result_cases env cutoffTime saveOk s item with hcase | ⟨_, hlog⟩
  · rw [hcase]
  · rw [hlog, List.count_append]
    simp [List.count_singleton', hne]

theorem runItems_dedup (env : Env) (cutoffTime : Int) (saveOk : Item → Bool) (link : String) :
    ∀ (items : List Item) (s : PipelineState), link ∈ s.seen →
      (link ∈ (runItems env cutoffTime saveOk s items).1.seen) ∧
      (∀ e ∈ (runItems env cutoffTime saveOk s items).2, e.1 ≠ link) ∧
      ((runItems env cutoffTime saveOk s items).1.log.count link = s.log.count link) := by
  intro items
  induction items with
  | nil => intro s h; exact ⟨h, by simp [runItems], by simp [runItems]⟩
  | cons item rest ih =>
    intro s h
    by_cases heq : item.link = link
    · have hc : item.link ∈ s.seen := heq ▸ h
      have hstep := processItem_seen_skip env cutoffTime (saveOk item) s item hc
      have ihr := ih s h
      refine ⟨?_, ?_, ?_⟩
      · simpa [runItems, hstep] using ihr.1
      · intro e he
        simp only [runItems, hstep] at he
        exact ihr.2.1 e (by simpa using he)
      · simpa [runItems, hstep] using ihr.2.2
    · have hmono := processItem_seen_mono env cutoffTime (saveOk item) s item link h
      have hcount := processItem_log_count env cutoffTime (saveOk item) s item link heq
      have htr := processItem_trace_links env cutoffTime (saveOk item) s item
      have ihr := ih (processItem env cutoffTime (saveOk item) s item).1 hmono
      refine ⟨?_, ?_, ?_⟩
      · simpa [runItems] using ihr.1
      · intro e he
        simp only [runItems, List.mem_append] at he
        rcases he with he | he
        · rw [htr e he]; exact heq
        · exact ihr.2.1 e he
      · simp only [runItems]
        rw [ihr.2.2, hcount]

/-! ### Concrete test fixtures used by the witness theorems -/

/-- A concrete environment: URL parsing always fails (links pass through
`cleanURL` unchanged) and every date string parses to instant 0. -/
def testEnv : Env :=
  { parse := fun _ => none, render := fun p => p.base, tp := fun _ _ => some 0 }

/-- A concrete environment whose date primitive never parses anything. -/
def testEnvNoDate : Env :=
  { parse := fun _ => none, render := fun p => p.base, tp := fun _ _ => none }

/-- A concrete item whose link is already in the dedup set of `stateA`. -/
def itemA : Item :=
  { title := "SQL Injection in login", description := "",
    link := "https://x/a", published := "2006-01-02 15:04:05" }

/-- A concrete item matching exactly the keyword `xss`. -/
def itemX : Item :=
  { title := "Found an XSS bug", description := "",
    link := "https://x/b", published := "2006-01-02 15:04:05" }

/-- A pipeline state whose dedup set and log already hold itemA's link. -/
def stateA : PipelineState :=
  { seen := ["https://x/a"], log := ["https://x/a"] }

/-- The empty pipeline state. -/
def stateEmpty : PipelineState := { seen := [], log := [] }

/-! ### Claim theorems -/

/-- C1: for every link already present in the loaded dedup set, the
orchestration pass dispatches no notification for any item with that link
and never reprocesses it — the item is skipped before date parsing and
dispatch under any environment, and no new dedup-log line for that link is
appended over the whole pass. -/
theorem claim_C1_dedup_skip (env : Env) (cutoffTime : Int) (saveOk : Item → Bool)
    (s : PipelineState) (items : List Item) (link : String)
    (h : link ∈ s.seen) :
    (∀ item : Item, item.link = link → ∀ (env' : Env) (cutoff' : Int) (sOk : Bool),
        processItem env' cutoff' sOk s item = (s, [])) ∧
    (∀ e ∈ (runItems env cutoffTime saveOk s items).2, e.1 ≠ link) ∧
    ((runItems env cutoffTime saveOk s items).1.log.count link = s.log.count link) := by
  refine ⟨?_, ?_, ?_⟩
  · intro item hl env' cutoff' sOk
    exact processItem_seen_skip env' cutoff' sOk s item (hl ▸ h)
  · exact (runItems_dedup env cutoffTime saveOk link items s h).2.1
  · exact (runItems_dedup env cutoffTime saveOk link items s h).2.2

/-- Witness for C1 at a concrete input: the link of `itemA` is already in
`stateA`, and running the pass over `[itemA]` leaves the dedup-log count of
that link unchanged. -/
theorem claim_C1_witness :
    (runItems testEnv 0 (fun _ => true) stateA [itemA]).1.log.count "https://x/a" =
      stateA.log.count "https://x/a" :=
  (claim_C1_dedup_skip testEnv 0 (fun _ => true) stateA [itemA] "https://x/a"
    (by simp [stateA, itemA])).2.2

/-- C2: a notification is dispatched only when the published-date string
parses under the fallback format list and the parsed date is on or after
the cutoff; an unparseable or too-old date makes the item a no-op (no
notification, no dedup write), and the fallback parse fails exactly when
every format of the list fails. -/
theorem claim_C2_date_filter (env : Env) (cutoffTime : Int) (saveOk : Bool)
    (s : PipelineState) (item : Item) :
    (parseDate env.tp item.published = none →
        processItem env cutoffTime saveOk s item = (s, [])) ∧
    (∀ d : Int, parseDate env.tp item.published = some d → d < cutoffTime →
        processItem env cutoffTime saveOk s item = (s, [])) ∧
    ((processItem env cutoffTime saveOk s item).2 ≠ [] →
        ∃ d : Int, parseDate env.tp item.published = some d ∧ ¬ d < cutoffTime) ∧
    ((∀ f ∈ dateFormats, env.tp f item.published = none) →
        parseDate env.tp item.published = none) := by
  refine ⟨?_, ?_, ?_, ?_⟩
  · intro h
    by_cases hc : item.link ∈ s.seen
    · exact processItem_seen_skip env cutoffTime saveOk s item hc
    · cases hpa : processArticle item with
      | none => simp [processItem, hc, hpa]
      | some article => simp [processItem, hc, hpa, h]
  · intro d h hlt
    by_cases hc : item.link ∈ s.seen
    · exact processItem_seen_skip env cutoffTime saveOk s item hc
    · cases hpa : processArticle item with
      | none => simp [processItem, hc, hpa]
      | some article => simp [processItem, hc, hpa, h, hlt]
  · intro hne
    by_cases hc : item.link ∈ s.seen
    · exact absurd (by rw [processItem_seen_skip env cutoffTime saveOk s item hc]) hne
    · cases hpa : processArticle item with
      | none => exact absurd (by simp [processItem, hc, hpa]) hne
      | some article =>
        cases hpd : parseDate env.tp item.published with
        | none => exact absurd (by simp [processItem, hc, hpa, hpd]) hne
        | some d =>
          by_cases hlt : d < cutoffTime
          · exact absurd (by simp [processItem, hc, hpa, hpd, hlt]) hne
          · exact ⟨d, rfl, hlt⟩
  · intro h
    exact List.findSome?_eq_none_iff.mpr h

/-- Witness for C2 at a concrete input: under a date primitive that parses
nothing, `itemA` (which matches keywords) is dropped with no state change
and no messages. -/
theorem claim_C2_witness :
    processItem testEnvNoDate 0 true stateEmpty itemA = (stateEmpty, []) :=
  (claim_C2_date_filter testEnvNoDate 0 true stateEmpty itemA).1 rfl

/-- C3: an item that passes the dedup and date filters and classifies to
N matched keywords produces exactly N dispatched messages, one per matched
tag with its own formatted message, and the dedup log grows by at most one
line. -/
theorem claim_C3_notifications (env : Env) (cutoffTime : Int) (saveOk : Bool)
    (s : PipelineState) (item : Item) (article : Article) (d : Int)
    (h1 : item.link ∉ s.seen)
    (h2 : processArticle item = some article)
    (h3 : parseDate env.tp item.published = some d)
    (h4 : ¬ d < cutoffTime) :
    ((processItem env cutoffTime saveOk s item).2 =
        article.matched.map
          (fun keyword => (item.link, formatTelegramMessage env.parse env.render article keyword))) ∧
    ((processItem env cutoffTime saveOk s item).2.length = article.matched.length) ∧
    (article.matched ≠ []) ∧
    ((processItem env cutoffTime saveOk s item).1.log =
        if saveOk then s.log ++ [item.link] else s.log) ∧
    ((processItem env cutoffTime saveOk s item).1.log.length ≤ s.log.length + 1) := by
  have hp := processItem_pass env cutoffTime saveOk s item article d h1 h2 h3 h4
  refine ⟨by rw [hp], by rw [hp]; simp, processArticle_matched_ne_nil h2, ?_, ?_⟩
  · rw [hp]; cases saveOk <;> simp
  · rw [hp]; cases saveOk <;> simp

/-- Witness for C3 at a concrete input: `itemX` matches exactly the keyword
`xss`, and one message is dispatched for it. -/
theorem claim_C3_witness :
    (processItem testEnv 0 true stateEmpty itemX).2.length =
      ({ title := "Found an XSS bug", description := "",
         link := "https://x/b", published := "2006-01-02 15:04:05",
         matched := ["xss"] } : Article).matched.length :=
  (claim_C3_notifications testEnv 0 true stateEmpty itemX
    { title := "Found an XSS bug", description := "", link := "https://x/b",
      published := "2006-01-02 15:04:05", matched := ["xss"] } 0
    (by simp [stateEmpty, itemX]) (by decide) rfl (by decide)).2.1

/-- C10: when the dedup-log append fails, the in-memory seen-set and the
log are both unchanged even though the notifications were already
dispatched, so a later occurrence of the same link is processed and
notified again. -/
theorem claim_C10_save_failure (env : Env) (cutoffTime : Int)
    (s : PipelineState) (item : Item) (article : Article) (d : Int)
    (saveOk' : Bool)
    (h1 : item.link ∉ s.seen)
    (h2 : processArticle item = some article)
    (h3 : parseDate env.tp item.published = some d)
    (h4 : ¬ d < cutoffTime) :
    ((processItem env cutoffTime false s item).1 = s) ∧
    ((processItem env cutoffTime false s item).2 =
        article.matched.map
          (fun keyword => (item.link, formatTelegramMessage env.parse env.render article keyword))) ∧
    ((processItem env cutoffTime false s item).2 ≠ []) ∧
    (processItem env cutoffTime saveOk' (processItem env cutoffTime false s item).1 item =
        processItem env cutoffTime saveOk' s item) ∧
    ((processItem env cutoffTime saveOk' s item).2 ≠ []) := by
  have hp := processItem_pass env cutoffTime false s item article d h1 h2 h3 h4
  have hp' := processItem_pass env cutoffTime saveOk' s item article d h1 h2 h3 h4
  have hmne := processArticle_matched_ne_nil h2
  refine ⟨by rw [hp]; simp, by rw [hp], ?_, ?_, ?_⟩
  · rw [hp]
    simpa using hmne
  · rw [hp]
    simp
  · rw [hp']
    cases saveOk' <;> simpa using hmne

/-- Witness for C10 at a concrete input: with a failing save, processing
`itemX` leaves the state unchanged, and reprocessing it dispatches messages
again. -/
theorem claim_C10_witness :
    (processItem testEnv 0 false stateEmpty itemX).1 = stateEmpty ∧
    (processItem testEnv 0 true stateEmpty itemX).2 ≠ [] :=
  have happ := claim_C10_save_failure testEnv 0 stateEmpty itemX
    { title := "Found an XSS bug", description := "", link := "https://x/b",
      published := "2006-01-02 15:04:05", matched := ["xss"] } 0 true
    (by simp [stateEmpty, itemX]) (by decide) rfl (by decide)
  ⟨happ.1, happ.2.2.2.2⟩

/-- C4: the backoff delay for 0-indexed attempt `k` equals
`baseDelay * 2 ^ k` plus the uniform random draw `r` from `[0, jitter)`,
capped at `maxDelay`: whenever the resulting delay is below `maxDelay` it
lies in `[baseDelay * 2 ^ k, baseDelay * 2 ^ k + jitter]`, and otherwise it
equals `maxDelay`. -/
theorem claim_C4_backoff (attempt baseDelay jitter maxDelay r : Nat)
    (h : r < jitter) :
    (getBackoffDelay attempt baseDelay jitter maxDelay r =
        min (baseDelay * 2 ^ attempt + r) maxDelay) ∧
    (getBackoffDelay attempt baseDelay jitter maxDelay r < maxDelay →
        baseDelay * 2 ^ attempt ≤ getBackoffDelay attempt baseDelay jitter maxDelay r ∧
        getBackoffDelay attempt baseDelay jitter maxDelay r ≤ baseDelay * 2 ^ attempt + jitter) ∧
    (¬ getBackoffDelay attempt baseDelay jitter maxDelay r < maxDelay →
        getBackoffDelay attempt baseDelay jitter maxDelay r = maxDelay) := by
  simp only [getBackoffDelay]
  set B := baseDelay * 2 ^ attempt with hB
  split_ifs with hm
  · exact ⟨by omega, fun h2 => ⟨by omega, by omega⟩, fun h2 => by omega⟩
  · exact ⟨by omega, fun h2 => ⟨by omega, by omega⟩, fun h2 => by omega⟩

/-- Witness for C4 at the spec's example: base 2, jitter 1, maxDelay 30,
attempt 3, draw 0 gives a delay within the interval from 16 to 17. -/
theorem claim_C4_witness :
    2 * 2 ^ 3 ≤ getBackoffDelay 3 2 1 30 0 ∧
    getBackoffDelay 3 2 1 30 0 ≤ 2 * 2 ^ 3 + 1 :=
  (claim_C4_backoff 3 2 1 30 0 (by decide)).2.1 (by decide)

theorem Wait_lookup_self (rl : RateLimiter) (domain : String) (now r : Nat) :
    ((rl.Wait domain now r).2).lastReq.lookup domain =
      some (now + (rl.Wait domain now r).1) := by
  simp [RateLimiter.Wait, List.lookup]

theorem Wait_minDelay_preserved (rl : RateLimiter) (domain : String) (now r : Nat) :
    (rl.Wait domain now r).2.minDelay = rl.minDelay := rfl

theorem Wait_fst_of_lookup (rl : RateLimiter) (domain : String) (t1 now r : Nat)
    (h : rl.lastReq.lookup domain = some t1) :
    (rl.Wait domain now r).1 =
      (if now - t1 < rl.minDelay then rl.minDelay - (now - t1) + r else 0) := by
  simp [RateLimiter.Wait, h]

theorem Wait_separation (rl : RateLimiter) (domain : String) (t1 now r : Nat)
    (h : rl.lastReq.lookup domain = some t1) (hle : t1 ≤ now) :
    t1 + rl.minDelay ≤ now + (rl.Wait domain now r).1 := by
  rw [Wait_fst_of_lookup rl domain t1 now r h]
  split_ifs with hel <;> omega

/-- C8: the first `Wait` call for a hostname never sleeps; each call
records `now + sleep` as the hostname's new last-request time; a call that
finds a previous request at `t1` starts effectively no earlier than
`t1 + minDelay` (exactly `t1 + minDelay + jitterDraw` when it has to
sleep); and two consecutive calls for the same hostname have effective
start times separated by at least `minDelay`. -/
theorem claim_C8_rate_limiter (rl : RateLimiter) (domain : String) :
    (∀ now r : Nat, rl.lastReq.lookup domain = none → (rl.Wait domain now r).1 = 0) ∧
    (∀ now r : Nat, ((rl.Wait domain now r).2).lastReq.lookup domain =
        some (now + (rl.Wait domain now r).1)) ∧
    (∀ t1 now r : Nat, rl.lastReq.lookup domain = some t1 → t1 ≤ now →
        t1 + rl.minDelay ≤ now + (rl.Wait domain now r).1) ∧
    (∀ t1 now r : Nat, rl.lastReq.lookup domain = some t1 → t1 ≤ now →
        now - t1 < rl.minDelay →
        now + (rl.Wait domain now r).1 = t1 + rl.minDelay + r) ∧
    (∀ now1 r1 now2 r2 : Nat, now1 + (rl.Wait domain now1 r1).1 ≤ now2 →
        now1 + (rl.Wait domain now1 r1).1 + rl.minDelay ≤
          now2 + (((rl.Wait domain now1 r1).2).Wait domain now2 r2).1) := by
  refine ⟨?_, Wait_lookup_self rl domain, Wait_separation rl domain, ?_, ?_⟩
  · intro now r h
    simp [RateLimiter.Wait, h]
  · intro t1 now r h hle hlt
    rw [Wait_fst_of_lookup rl domain t1 now r h]
    split_ifs with hel <;> omega
  · intro now1 r1 now2 r2 hle
    have hsep := Wait_separation (rl.Wait domain now1 r1).2 domain
      (now1 + (rl.Wait domain now1 r1).1) now2 r2
      (Wait_lookup_self rl domain now1 r1) hle
    rwa [Wait_minDelay_preserved] at hsep

/-- Witness for C8 at a concrete input: from an empty limiter with
minDelay 5 and jitter 2, the first call at instant 100 does not sleep, and
a second back-to-back call at instant 100 starts effectively at least 5
units after the first. -/
theorem claim_C8_witness :
    ((RateLimiter.mk [] 5 2).Wait "example.com" 100 1).1 = 0 ∧
    100 + ((RateLimiter.mk [] 5 2).Wait "example.com" 100 1).1 + 5 ≤
      100 + ((((RateLimiter.mk [] 5 2).Wait "example.com" 100 1).2).Wait "example.com" 100 1).1 :=
  have hc := claim_C8_rate_limiter (RateLimiter.mk [] 5 2) "example.com"
  ⟨hc.1 100 1 rfl, by
    have := hc.2.2.2.2 100 1 100 1 (by simp [RateLimiter.Wait, List.lookup])
    simpa using this⟩

/-- C5 counterexample: the claim says unexpected EOF errors are retried,
but `shouldRetry` only tests `errors.Is(err, io.EOF)`; applied to Go's
`io.ErrUnexpectedEOF` (a distinct error whose message is the literal string
"unexpected EOF") it returns false. -/
theorem claim_C5_counterexample : shouldRetry GoError.unexpectedEOF = false := by decide

/-- C5 (amended): the retry classification returns true exactly for HTTP
5xx and HTTP 429, timeouts and temporary network errors, DNS errors other
than not-found, plain EOF (a server-closed connection; Go's distinct
`io.ErrUnexpectedEOF` value is NOT retried), connection refused, connection
reset, and TLS-handshake-timeout errors; HTTP 4xx other than 429, malformed
URLs, not-found DNS errors and all other errors are not retried. -/
theorem claim_C5_amended :
    (∀ code body, 500 ≤ code → shouldRetry (.httpError code body) = true) ∧
    (∀ body, shouldRetry (.httpError 429 body) = true) ∧
    (∀ code body, 400 ≤ code → code < 500 → code ≠ 429 →
        shouldRetry (.httpError code body) = false) ∧
    (∀ t tmp msg, (t || tmp) = true → shouldRetry (.netErr t tmp msg) = true) ∧
    (∀ t tmp msg, shouldRetry (.dnsError false t tmp msg) = true) ∧
    (∀ msg, shouldRetry (.dnsError true false false msg) = false) ∧
    (shouldRetry .eofError = true) ∧
    (shouldRetry .unexpectedEOF = false) ∧
    (shouldRetry .econnrefused = true) ∧
    (shouldRetry .econnreset = true) ∧
    (∀ msg, strContains msg "TLS handshake timeout" = true →
        shouldRetry (.otherError msg) = true) ∧
    (∀ msg, strContains msg "TLS handshake timeout" = false →
        shouldRetry (.urlError false false msg) = false) ∧
    (∀ msg, strContains msg "TLS handshake timeout" = false →
        shouldRetry (.otherError msg) = false) := by
  refine ⟨?_, ?_, ?_, ?_, ?_, ?_, by decide, by decide, by decide, by decide, ?_, ?_, ?_⟩
  · intro code body h
    simp [shouldRetry, GoError.asHTTPError, h]
  · intro body
    simp [shouldRetry, GoError.asHTTPError]
  · intro code body h4 h5 hne
    have : ¬ (500 ≤ code ∨ code = 429) := by omega
    simp [shouldRetry, GoError.asHTTPError, this, h4, h5]
  · intro t tmp msg h
    simp [shouldRetry, shouldRetryNet, GoError.asHTTPError, GoError.asNetError, h]
  · intro t tmp msg
    cases t <;> cases tmp <;>
      simp [shouldRetry, shouldRetryNet, shouldRetryDNS,
        GoError.asHTTPError, GoError.asNetError, GoError.asDNSError]
  · intro msg
    simp [shouldRetry, shouldRetryNet, shouldRetryDNS,
      GoError.asHTTPError, GoError.asNetError, GoError.asDNSError]
  · intro msg h
    simp [shouldRetry, shouldRetryNet, shouldRetryDNS, shouldRetryURL, shouldRetrySwitch,
      GoError.asHTTPError, GoError.asNetError, GoError.asDNSError, GoError.asURLError,
      GoError.isEOFErr, GoError.isConnRefused, GoError.isConnReset, GoError.errMsg, h]
  · intro msg h
    simp [shouldRetry, shouldRetryNet, shouldRetryDNS, shouldRetryURL, shouldRetrySwitch,
      GoError.asHTTPError, GoError.asNetError, GoError.asDNSError, GoError.asURLError,
      GoError.isEOFErr, GoError.isConnRefused, GoError.isConnReset, GoError.errMsg, h]
  · intro msg h
    simp [shouldRetry, shouldRetryNet, shouldRetryDNS, shouldRetryURL, shouldRetrySwitch,
      GoError.asHTTPError, GoError.asNetError, GoError.asDNSError, GoError.asURLError,
      GoError.isEOFErr, GoError.isConnRefused, GoError.isConnReset, GoError.errMsg, h]

/-- Witness for C5 (amended) at concrete inputs: HTTP 503 is retried, HTTP
404 is not, HTTP 429 is retried, a TLS handshake timeout is retried, and a
malformed-URL error is not. -/
theorem claim_C5_witness :
    shouldRetry (.httpError 503 "service unavailable") = true ∧
    shouldRetry (.httpError 404 "not found") = false ∧
    shouldRetry (.httpError 429 "too many requests") = true ∧
    shouldRetry (.otherError "net/http: TLS handshake timeout") = true ∧
    shouldRetry (.urlError false false "parse \x22://bad\x22: missing protocol scheme") = false :=
  have hc := claim_C5_amended
  ⟨hc.1 503 "service unavailable" (by decide),
   hc.2.2.1 404 "not found" (by decide) (by decide) (by decide),
   hc.2.1 "too many requests",
   hc.2.2.2.2.2.2.2.2.2.2.1 "net/http: TLS handshake timeout" (by decide),
   hc.2.2.2.2.2.2.2.2.2.2.2.1 "parse \x22://bad\x22: missing protocol scheme" (by decide)⟩

theorem fetchRetryLoop_attempts_le (fetch : String → Nat → Except GoError (List Item))
    (url : String) :
    ∀ (fuel attempt : Nat) (lastErr : GoError),
      (fetchRetryLoop fetch url attempt fuel lastErr).2 ≤ fuel := by
  intro fuel
  induction fuel with
  | zero => intro attempt lastErr; simp [fetchRetryLoop]
  | succ fuel ih =>
    intro attempt lastErr
    simp only [fetchRetryLoop]
    cases hf : fetch url attempt with
    | ok items => simp
    | error e =>
      by_cases hr : shouldRetry e
      · have := ih (attempt + 1) e
        simp only [hr, if_true]
        omega
      · simp [hr]

theorem fetchArticlesWithRetry_attempts (fetch : String → Nat → Except GoError (List Item))
    (url : String) (maxRetries : Nat) :
    (fetchArticlesWithRetry fetch url maxRetries).2 =
      (fetchRetryLoop fetch url 0 (maxRetries + 1) (.otherError "")).2 := by
  simp only [fetchArticlesWithRetry]
  cases (fetchRetryLoop fetch url 0 (maxRetries + 1) (.otherError "")).1 <;> rfl

/-- C6 counterexample: with a fetch that always fails with a retryable
HTTP 503 and maxRetries 1, the wrapper performs 2 attempts but the returned
error message reads "after 1 attempts: HTTP error 503: e" — it contains
neither the fetched URL nor the actual attempt count (no character "2"
occurs in it), refuting the claim that the wrapped error identifies the URL
and the attempt count. -/
theorem claim_C6_counterexample :
    (fetchArticlesWithRetry (fun _ _ => .error (.httpError 503 "e"))
        "https://example.com/feed" 1).2 = 2 ∧
    (fetchArticlesWithRetry (fun _ _ => .error (.httpError 503 "e"))
        "https://example.com/feed" 1).1 =
      Except.error (.wrapped "after 1 attempts" (.httpError 503 "e")) ∧
    GoError.errMsg (.wrapped "after 1 attempts" (.httpError 503 "e")) =
      "after 1 attempts: HTTP error 503: e" ∧
    strContains (GoError.errMsg (.wrapped "after 1 attempts" (.httpError 503 "e")))
      "https://example.com/feed" = false ∧
    strContains (GoError.errMsg (.wrapped "after 1 attempts" (.httpError 503 "e"))) "2" = false :=
  ⟨rfl, rfl, by decide, by decide, by decide⟩

/-- C6 (amended): the retry wrapper performs at most maxRetries + 1 fetch
attempts, stops after a single attempt on a non-retryable error, and on
giving up returns one wrapped error whose context reports the configured
maxRetries value (not necessarily the actual number of attempts performed)
and adds no URL. -/
theorem claim_C6_amended (fetch : String → Nat → Except GoError (List Item))
    (url : String) (maxRetries : Nat) :
    ((fetchArticlesWithRetry fetch url maxRetries).2 ≤ maxRetries + 1) ∧
    (∀ e : GoError, fetch url 0 = .error e → shouldRetry e = false →
        fetchArticlesWithRetry fetch url maxRetries =
          (.error (.wrapped ("after " ++ Nat.repr maxRetries ++ " attempts") e), 1)) ∧
    (∀ e : GoError, (fetchArticlesWithRetry fetch url maxRetries).1 = .error e →
        ∃ e', e = .wrapped ("after " ++ Nat.repr maxRetries ++ " attempts") e') := by
  refine ⟨?_, ?_, ?_⟩
  · rw [fetchArticlesWithRetry_attempts]
    exact fetchRetryLoop_attempts_le fetch url (maxRetries + 1) 0 (.otherError "")
  · intro e h1 h2
    simp [fetchArticlesWithRetry, fetchRetryLoop, h1, h2]
  · intro e he
    simp only [fetchArticlesWithRetry] at he
    cases houtcome : (fetchRetryLoop fetch url 0 (maxRetries + 1) (.otherError "")).1 with
    | ok items =>
      rw [houtcome] at he
      cases he
    | error e0 =>
      rw [houtcome] at he
      simp only at he
      exact ⟨e0, (Except.error.injEq _ _ ▸ he).symm⟩

/-- Witness for C6 (amended) at a concrete input: a fatal HTTP 404 on the
first attempt stops the wrapper after one attempt with the wrapped error. -/
theorem claim_C6_witness :
    fetchArticlesWithRetry (fun _ _ => .error (.httpError 404 "nf")) "https://u" 3 =
      (.error (.wrapped "after 3 attempts" (.httpError 404 "nf")), 1) :=
  (claim_C6_amended (fun _ _ => .error (.httpError 404 "nf")) "https://u" 3).2.1
    (.httpError 404 "nf") rfl (by decide)

/-- C7: on the JSON-feed path, any response status other than 200 produces
the fatal error carrying the status code, which the retry classifier never
retries; a 200 response whose body decodes yields exactly the decoded
objects mapped into normalized items carrying title, description, link and
published date. -/
theorem claim_C7_json_feed (decode : String → Except String (List JsonItem))
    (status : Nat) (body : String) (items : List JsonItem) :
    (status ≠ 200 →
        parseWriteupsXYZFeed decode (.ok (status, body)) =
          .error (.otherError ("unexpected status code: " ++ Nat.repr status)) ∧
        shouldRetry (.otherError ("unexpected status code: " ++ Nat.repr status)) = false) ∧
    (decode body = .ok items →
        parseWriteupsXYZFeed decode (.ok (200, body)) = .ok (items.map toFeedItem)) ∧
    (∀ j : JsonItem, toFeedItem j =
        { title := j.title, description := j.description,
          link := j.link, published := j.published }) := by
  refine ⟨fun h => ⟨by simp [parseWriteupsXYZFeed, h], ?_⟩,
    fun h => by simp [parseWriteupsXYZFeed, h], fun j => rfl⟩
  simp [shouldRetry, shouldRetryNet, shouldRetryDNS, shouldRetryURL, shouldRetrySwitch,
    GoError.asHTTPError, GoError.asNetError, GoError.asDNSError, GoError.asURLError,
    GoError.isEOFErr, GoError.isConnRefused, GoError.isConnReset, GoError.errMsg,
    statusMsg_no_tls status]

/-- Witness for C7 at a concrete input: a 503 on the JSON path yields the
fatal status-code error and the classifier does not retry it. -/
theorem claim_C7_witness :
    parseWriteupsXYZFeed (fun _ => .error "boom") (.ok (503, "")) =
      .error (.otherError "unexpected status code: 503") ∧
    shouldRetry (.otherError "unexpected status code: 503") = false :=
  have h := (claim_C7_json_feed (fun _ => .error "boom") 503 "" []).1 (by decide)
  ⟨h.1, h.2⟩

theorem str_append_assoc (a b c : String) : (a ++ b) ++ c = a ++ (b ++ c) := by
  cases a with
  | mk la =>
    cases b with
    | mk lb =>
      cases c with
      | mk lc =>
        show String.mk ((la ++ lb) ++ lc) = String.mk (la ++ (lb ++ lc))
        rw [List.append_assoc]

/-- C9: every dispatched Telegram message contains the cleaned form of the
article link (links that fail URL parsing pass through unchanged, the
cleaned query holds no `source` or `utm_`-prefixed parameter, and a cleaned
link containing `medium.com` is rewritten behind freedium.cfd), while the
dedup log records the original unmodified link string. -/
theorem claim_C9_clean_link (env : Env) :
    (∀ raw, env.parse raw = none → cleanURL env.parse env.render raw = raw) ∧
    (∀ raw u, env.parse raw = some u →
        cleanURL env.parse env.render raw =
          env.render { u with query := cleanQuery u.query } ∧
        ∀ kv ∈ cleanQuery u.query,
          ¬(kv.1 = "source" ∨ strStartsWith kv.1 "utm_" = true)) ∧
    (∀ (article : Article) (keyword : String),
        strContains (formatTelegramMessage env.parse env.render article keyword)
          (messageLink env.parse env.render article.link) = true) ∧
    (∀ raw, strContains (cleanURL env.parse env.render raw) "medium.com" = true →
        messageLink env.parse env.render raw =
          "https://freedium.cfd/" ++ cleanURL env.parse env.render raw) ∧
    (∀ (cutoffTime : Int) (s : PipelineState) (item : Item) (article : Article) (d : Int),
        item.link ∉ s.seen → processArticle item = some article →
        parseDate env.tp item.published = some d → ¬ d < cutoffTime →
        (processItem env cutoffTime true s item).1.log = s.log ++ [item.link]) := by
  refine ⟨?_, ?_, ?_, ?_, ?_⟩
  · intro raw h
    simp [cleanURL, h]
  · intro raw u h
    refine ⟨by simp [cleanURL, h], ?_⟩
    intro kv hkv
    simp only [cleanQuery, List.mem_filter, Bool.not_eq_eq_eq_not, Bool.not_true,
      Bool.or_eq_false_iff, beq_eq_false_iff_ne] at hkv
    rcases hkv with ⟨-, hkv1, hkv2⟩
    rintro (h1 | h2)
    · exact hkv1 h1
    · rw [hkv2] at h2
      cases h2
  · intro article keyword
    unfold formatTelegramMessage
    rw [str_append_assoc]
    exact strContains_sandwich _ _ _
  · intro raw h
    simp [messageLink, h]
  · intro cutoffTime s item article d h1 h2 h3 h4
    rw [processItem_pass env cutoffTime true s item article d h1 h2 h3 h4]
    simp

/-- Witness for C9 at a concrete input: under a parser that fails on every
URL, a raw link passes through `cleanURL` unchanged. -/
theorem claim_C9_witness :
    cleanURL testEnv.parse testEnv.render "https://x/a?source=rss" = "https://x/a?source=rss" :=
  (claim_C9_clean_link testEnv).1 "https://x/a?source=rss" rfl

end WriteupHunter

